import Mathlib

/-!
# Verification of the pgstream streaming core

A shallow embedding of the pgstream CDC pipeline core: the Kafka listener's
error policy, the batch writer's admission / sender / flush logic, the
schema-log store, the schema cleaner's deletion queue, and the Postgres LSN
parser.  Components whose implementation ships with the repository are
translated directly from the source; components for which only the tests are
available in this tree are modelled from the specification (each such
definition says so in its doc comment).
-/

namespace Pgstream

/-! ## Go error values

Go errors are modelled as a wrap chain: `base s` is `errors.New(s)` and
`wrap s e` is `fmt.Errorf("s: %w", e)`.  `GoErr.isErr` is `errors.Is`. -/

inductive GoErr where
  | base : String → GoErr
  | wrap : String → GoErr → GoErr
  deriving DecidableEq, Repr

/-- `errors.Is(e, target)`: `e` equals `target` or wraps it at some depth. -/
def GoErr.isErr : GoErr → GoErr → Bool
  | .base s, t => GoErr.base s == t
  | .wrap s e, t => GoErr.wrap s e == t || e.isErr t

/-- `err.Error()`: the rendered message of a wrap chain. -/
def GoErr.message : GoErr → String
  | .base s => s
  | .wrap s e => s ++ ": " ++ e.message

/-- `context.Canceled` sentinel. -/
def ctxCanceled : GoErr := .base "context canceled"

/-- `pgx.ErrNoRows` sentinel of the Postgres driver. -/
def pgxErrNoRows : GoErr := .base "no rows in result set"

/-- `schemalog.ErrNoRows` sentinel of the schema-log package. -/
def schemalogErrNoRows : GoErr := .base "no rows"

/-! ## Schema-log store error mapping (claim about `mapError`)

The store implementation lives outside this tree; only its tests do. -/

/-- Modelled from the spec: the schemalog Postgres store's `mapError`
(implementation not under src, only `Test_mapError`): "An error raised by the
underlying driver meaning *no row* is translated to the sentinel `ErrNoRows`;
all other errors propagate." -/
def mapError (err : GoErr) : GoErr :=
  if err.isErr pgxErrNoRows then schemalogErrNoRows else err

/-! ## Schema cleaner (translated from source `schemaCleaner`)

`deleteSchema` selects between a channel send into the bounded queue and a
`time.After(registrationTimeout)`.  The passage of time within the timeout
window is modelled as a trace of booleans, one per instant, each telling
whether the queue can accept the schema name at that instant; the select
commits on the first accepting instant, and the timeout fires when the trace
is exhausted.  The context argument is carried exactly as in the source,
where it is the blank identifier `_`. -/

/-- A Go `context`: for these claims only its cancellation state matters. -/
structure GoContext where
  cancelled : Bool
  deriving DecidableEq, Repr

/-- Result of `schemaCleaner.deleteSchema`: `none` is a nil error. -/
def errRegistrationTimeout : GoErr := .base "timeout registering schema for clean up"

/-- `schemaCleaner.deleteSchema` from the source: enqueue wins at the first
instant the queue has room, otherwise the registration timeout fires.  The
context parameter is ignored, as in the source (`_ context.Context`). -/
def deleteSchema : GoContext → List Bool → Option GoErr
  | _, [] => some errRegistrationTimeout
  | _, true :: _ => none
  | ctx, false :: rest => deleteSchema ctx rest

/-! ## WAL data model (translated from `src/pkg/wal/wal_data.go`) -/

/-- An untyped Go value (`any`), as carried by a WAL column. -/
inductive GoValue where
  | str : String → GoValue
  | int : Int → GoValue
  | bool : Bool → GoValue
  | null : GoValue
  deriving DecidableEq, Repr

/-- The Go dynamic type name of a value, as `%T` renders it. -/
def GoValue.typeName : GoValue → String
  | .str _ => "string"
  | .int _ => "int"
  | .bool _ => "bool"
  | .null => "<nil>"

/-- `wal.Column`: immutable pgstream id, current name, type and value. -/
structure WalColumn where
  id : String
  name : String
  type : String
  value : GoValue
  deriving DecidableEq, Repr

/-- `wal.Metadata`: pgstream-specific identifiers stamped on an event. -/
structure WalMetadata where
  schemaID : String
  tablePgstreamID : String
  internalColID : String
  internalColVersion : String
  deriving DecidableEq, Repr

/-- `wal.Metadata.IsEmpty`: true when the last three string fields are blank. -/
def WalMetadata.isEmpty (m : WalMetadata) : Bool :=
  m.tablePgstreamID == "" && m.internalColID == "" && m.internalColVersion == ""

/-- `wal.Data`: one decoded WAL change record. -/
structure WalData where
  action : String
  timestamp : String
  lsn : String
  schema : String
  table : String
  columns : List WalColumn
  identity : List WalColumn
  metadata : WalMetadata
  deriving DecidableEq, Repr

/-- `wal.Event`: a `Data` payload (absent for keep-alives) plus the commit
position it came from. -/
structure WalEvent where
  data : Option WalData
  commitPosition : String
  deriving DecidableEq, Repr

/-! ## Kafka listener (translated from source `Reader.Listen`)

`Listen` loops: check `ctx.Done`, fetch a message, build the event with the
offset-derived commit position, unmarshal the value into `wal.Data`, and hand
the event to `processRecord`.  The injected collaborators (`FetchMessage`,
`unmarshaler`, `processRecord`) are modelled by an oracle per iteration giving
the result each of them would return at that point. -/

/-- A fetched Kafka record. -/
structure KafkaRecord where
  topic : String
  partition : Nat
  offset : Nat
  key : String
  value : String
  deriving DecidableEq, Repr

/-- `OffsetParser.ToString` on `(topic, partition, offset)`: the canonical
`topic:partition:offset` text form. -/
def offsetToString (r : KafkaRecord) : String :=
  r.topic ++ ":" ++ toString r.partition ++ ":" ++ toString r.offset

/-- One loop iteration's environment: whether the context is already done,
and what each injected collaborator returns if it is reached. -/
structure ListenIteration where
  ctxDone : Bool
  fetch : Except GoErr KafkaRecord
  unmarshal : Except GoErr WalData
  process : Option GoErr
  deriving Repr

/-- Result of a `Listen` run over a finite iteration trace: the error
returned (none when the trace ran out with the loop still going) and the
errors logged at DATALOSS severity, in order. -/
structure ListenRun where
  returned : Option GoErr
  datalossLogged : List GoErr
  deriving DecidableEq, Repr

/-- `Reader.Listen` from the source, over a finite trace of iterations:
a `ctx.Done` returns `ctx.Err()`; a fetch error returns wrapped (fatal); an
unmarshal error returns wrapped (fatal); a `processRecord` error satisfying
`errors.Is(err, context.Canceled)` returns wrapped; any other
`processRecord` error is logged with severity DATALOSS and the loop
continues. -/
def listen : List ListenIteration → ListenRun
  | [] => ⟨none, []⟩
  | it :: rest =>
    if it.ctxDone then ⟨some ctxCanceled, []⟩
    else
      match it.fetch with
      | .error e => ⟨some (.wrap "reading from kafka" e), []⟩
      | .ok _ =>
        match it.unmarshal with
        | .error e => ⟨some (.wrap "error unmarshaling message value into wal data" e), []⟩
        | .ok _ =>
          match it.process with
          | none => listen rest
          | some e =>
            if e.isErr ctxCanceled then ⟨some (.wrap "canceled" e), []⟩
            else
              let r := listen rest
              ⟨r.returned, e :: r.datalossLogged⟩

/-! ## Batch writer (modelled from the spec)

The Kafka `BatchWriter` implementation is not under src — only its tests
are — so `ProcessWALEvent`, the sender loop and `sendBatch` below are
modelled from the spec's §4.F (translator interception and panic recovery)
and §4.G (admission, sender, flush), with the tests fixing the concrete
expectations. -/

/-- The reserved schema holding the schema-log table (`schemalog.SchemaName`). -/
def schemalogSchemaName : String := "pgstream"

/-- The schema-log table name (`schemalog.TableName`). -/
def schemalogTableName : String := "schema_log"

/-- A message bound for the sink: key is the schema name, value the
serialized event bytes (a keep-alive has empty key and value). -/
structure SinkMessage where
  key : String
  value : String
  deriving DecidableEq, Repr

/-- The batch writer's queued `msg`: a sink message plus the commit position
it came from. -/
structure Msg where
  msg : SinkMessage
  pos : String
  deriving DecidableEq, Repr

/-- `msg.size()`: the payload byte size. -/
def Msg.size (m : Msg) : Nat := m.msg.value.length

/-- A keep-alive queue entry: position only, zero-valued sink message. -/
def keepAliveMsg (pos : String) : Msg := ⟨⟨"", ""⟩, pos⟩

/-- Modelled from the spec: the schema-log interception of §4.F for an event
whose `Data` matches the schema-log schema, table and Insert action.  The
`schema_name` column must be present and hold a string; a violation panics
and the panic is recovered into an error prefixed
`kafka batch writer: understanding event:`.  Returns that recovered error,
or none when the event is acceptable. -/
def understandEvent (d : WalData) : Option GoErr :=
  if d.schema == schemalogSchemaName && d.table == schemalogTableName
      && d.action == "I" then
    match d.columns.find? (fun c => c.name == "schema_name") with
    | none =>
      some (.wrap "kafka batch writer: understanding event"
        (.base "schema_log schema_name not found in columns"))
    | some c =>
      match c.value with
      | .str _ => none
      | v =>
        some (.wrap "kafka batch writer: understanding event"
          (.base ("schema_log schema_name received is not a string: "
            ++ v.typeName)))
  else none

/-- Everything observable about one `ProcessWALEvent` call: the returned
error (none = nil), the messages enqueued to the sender, and the byte
amounts acquired from the queue-bytes semaphore. -/
structure ProcessOutcome where
  result : Option GoErr
  enqueued : List Msg
  acquired : List Nat
  deriving DecidableEq, Repr

/-- Modelled from the spec: `BatchWriter.ProcessWALEvent` (§4.G admission).
`serialise` is the injected event serialiser; `acquire n` is the semaphore
acquisition's result for `n` bytes (none = acquired).  Nil `Data` enqueues a
position-only message; a malformed schema-log event returns the recovered
error; a serialisation error is returned; a payload larger than
`maxBatchBytes` is logged and dropped returning nil; otherwise the semaphore
is acquired for the payload size and the message enqueued. -/
def processWALEvent (maxBatchBytes : Nat) (serialise : WalData → Except GoErr String)
    (acquire : Nat → Option GoErr) (ev : WalEvent) : ProcessOutcome :=
  match ev.data with
  | none => ⟨none, [keepAliveMsg ev.commitPosition], []⟩
  | some d =>
    match understandEvent d with
    | some e => ⟨some e, [], []⟩
    | none =>
      match serialise d with
      | .error e => ⟨some e, [], []⟩
      | .ok bytes =>
        if bytes.length > maxBatchBytes then ⟨none, [], []⟩
        else
          match acquire bytes.length with
          | some e => ⟨some e, [], []⟩
          | none => ⟨none, [⟨⟨d.schema, bytes⟩, ev.commitPosition⟩], [bytes.length]⟩

/-- The sender's `msgBatch`: sink messages plus the parallel commit
positions, with the running payload byte total. -/
structure MsgBatch where
  msgs : List SinkMessage
  positions : List String
  totalBytes : Nat
  deriving DecidableEq, Repr

/-- The batch the sender starts from. -/
def MsgBatch.empty : MsgBatch := ⟨[], [], 0⟩

/-- Whether a queued message carries a payload (a keep-alive does not). -/
def Msg.hasPayload (m : Msg) : Bool := m.msg.value.length != 0

/-- How much a message counts toward the batch-size (count) trigger: a
keep-alive contributes 0. -/
def Msg.countWeight (m : Msg) : Nat := if m.hasPayload then 1 else 0

/-- Appending a message to a batch: a payload message adds its sink message,
position and bytes; a keep-alive adds only its position. -/
def MsgBatch.add (b : MsgBatch) (m : Msg) : MsgBatch :=
  if m.hasPayload then
    ⟨b.msgs ++ [m.msg], b.positions ++ [m.pos], b.totalBytes + m.size⟩
  else
    ⟨b.msgs, b.positions ++ [m.pos], b.totalBytes⟩

/-- Sender state: the single goroutine's current batch plus the batches
flushed so far, in order. -/
structure SendState where
  current : MsgBatch
  flushed : List MsgBatch
  deriving DecidableEq, Repr

/-- Modelled from the spec: one step of the sender loop (§4.G) on a new
message `m`.  If adding `m` would push the batch over `maxBatchBytes` in
bytes or over `maxBatchSize` in count, the current batch is flushed first
and a fresh batch is started containing `m`; otherwise `m` is appended. -/
def sendStep (maxBatchBytes maxBatchSize : Nat) (st : SendState) (m : Msg) :
    SendState :=
  if st.current.totalBytes + m.size > maxBatchBytes
      ∨ st.current.msgs.length + m.countWeight > maxBatchSize then
    ⟨MsgBatch.empty.add m, st.flushed ++ [st.current]⟩
  else
    ⟨st.current.add m, st.flushed⟩

/-- Modelled from the spec: the sender loop run over a finite message
stream, ending with the best-effort final flush performed on `ctx.Done`. -/
def sendRun (maxBatchBytes maxBatchSize : Nat) (msgs : List Msg) :
    List MsgBatch :=
  let st := msgs.foldl (sendStep maxBatchBytes maxBatchSize)
    ⟨MsgBatch.empty, []⟩
  st.flushed ++ [st.current]

/-- The sink writes a run of flushes performs: one write per flushed batch
that has at least one payload message. -/
def flushWrites (batches : List MsgBatch) : List (List SinkMessage) :=
  (batches.filter (fun b => !b.msgs.isEmpty)).map MsgBatch.msgs

/-- The semaphore releases a run of flushes performs: the payload byte
total of each flushed batch that was written to the sink. -/
def flushReleases (batches : List MsgBatch) : List Nat :=
  (batches.filter (fun b => !b.msgs.isEmpty)).map MsgBatch.totalBytes

/-- Everything observable about one `sendBatch` call: the returned error,
the messages written to the sink (none = write skipped), the semaphore
release (none = no release), and the positions handed to the checkpointer
(none = checkpointer not invoked). -/
structure SendBatchOutcome where
  result : Option GoErr
  wrote : Option (List SinkMessage)
  released : Option Nat
  checkpointed : Option (List String)
  deriving DecidableEq, Repr

/-- Modelled from the spec: `BatchWriter.sendBatch` (§4.G flush).
`writeErr` is what the sink write would return, `checkpointErr` what the
checkpointer would return.  A batch with no payload messages skips the sink
write but still checkpoints its keep-alive positions (a batch with neither
messages nor positions does nothing).  Otherwise the messages are written in
one call; a write error is returned and nothing is checkpointed; on success
the semaphore is released for the batch's bytes and every position is
checkpointed, a checkpoint error being logged but not returned. -/
def sendBatch (writeErr _checkpointErr : Option GoErr) (b : MsgBatch) :
    SendBatchOutcome :=
  if b.msgs.isEmpty then
    if b.positions.isEmpty then ⟨none, none, none, none⟩
    else ⟨none, none, none, some b.positions⟩
  else
    match writeErr with
    | some e => ⟨some e, some b.msgs, none, none⟩
    | none => ⟨none, some b.msgs, some b.totalBytes, some b.positions⟩

/-! ## Schema-log store (modelled from the spec)

The Postgres store implementation is not under src — only `TestStore_Fetch`,
`TestStore_Ack` and `Test_mapError` are — so `Fetch` is modelled from §4.E,
with the tests fixing the exact SQL text. -/

/-- A schema-log row: `(id, version, schema_name, schema, created_at,
acked)`. -/
structure SchemaLogEntry where
  id : String
  version : Nat
  schemaName : String
  schema : String
  createdAt : String
  acked : Bool
  deriving DecidableEq, Repr

/-- Modelled from the spec: the SQL text `Store.Fetch` issues, with the
`and acked` clause present exactly when `ackedOnly` is set. -/
def fetchQuery (ackedOnly : Bool) : String :=
  "select id, version, schema_name, schema, created_at, acked from "
    ++ schemalogSchemaName ++ "." ++ schemalogTableName
    ++ " where schema_name = $1 "
    ++ (if ackedOnly then "and acked" else "")
    ++ " order by version desc limit 1"

/-- The row filter the fetch query's `where` clause denotes. -/
def matchesFetch (schemaName : String) (ackedOnly : Bool)
    (r : SchemaLogEntry) : Bool :=
  r.schemaName == schemaName && (!ackedOnly || r.acked)

/-- `order by version desc limit 1` denoted as a fold: keep the
higher-version of two candidate rows. -/
def pickNewer (acc : Option SchemaLogEntry) (r : SchemaLogEntry) :
    Option SchemaLogEntry :=
  match acc with
  | none => some r
  | some b => if b.version < r.version then some r else some b

/-- The row the fetch query selects over a table state `db`: the
highest-version row matching the filter, if any. -/
def runFetchQuery (db : List SchemaLogEntry) (schemaName : String)
    (ackedOnly : Bool) : Option SchemaLogEntry :=
  (db.filter (matchesFetch schemaName ackedOnly)).foldl pickNewer none

/-- The single query a `Fetch` call issues: its SQL text and arguments. -/
structure FetchCall where
  query : String
  args : List String
  deriving DecidableEq, Repr

/-- Everything observable about one `Store.Fetch` call: the query issued and
the result returned. -/
structure FetchOutcome where
  call : FetchCall
  result : Except GoErr SchemaLogEntry
  deriving Repr

/-- Modelled from the spec: `Store.Fetch` over a table state `db`.  Issues
exactly one query — the text of `fetchQuery` with the schema name as the
single argument — and returns the selected row; when the driver reports no
row the error goes through `mapError`, yielding the `ErrNoRows` sentinel. -/
def fetch (db : List SchemaLogEntry) (schemaName : String)
    (ackedOnly : Bool) : FetchOutcome :=
  ⟨⟨fetchQuery ackedOnly, [schemaName]⟩,
    match runFetchQuery db schemaName ackedOnly with
    | some r => .ok r
    | none => .error (mapError pgxErrNoRows)⟩

/-! ## Postgres LSN parser

`src/pkg/replication/postgres/pg_lsn_parser.go` delegates to
`pglogrepl.ParseLSN` / `pglogrepl.LSN.String`, which are outside this tree;
they are modelled here: `String` renders `"%X/%X"` of the two 32-bit halves
(uppercase hex, no leading zeros), and `ParseLSN` reads hex digits, a slash
and hex digits, combining `(upper << 32) + lower` in 64-bit arithmetic.  The
model requires the whole input to be consumed, which is what every canonical
LSN string satisfies. -/

/-- The uppercase hex digit for `d < 16`, as Go's `%X` renders it. -/
def hexDigitChar (d : Nat) : Char :=
  if d < 10 then Char.ofNat (48 + d) else Char.ofNat (55 + d)

/-- Whether a character is a hex digit (either case), as `Sscanf %X`
accepts. -/
def isHexDigit (c : Char) : Bool :=
  (48 ≤ c.toNat && c.toNat ≤ 57) || (65 ≤ c.toNat && c.toNat ≤ 70)
    || (97 ≤ c.toNat && c.toNat ≤ 102)

/-- The numeric value of a hex digit character. -/
def hexDigitVal (c : Char) : Nat :=
  if 48 ≤ c.toNat && c.toNat ≤ 57 then c.toNat - 48
  else if 65 ≤ c.toNat && c.toNat ≤ 70 then c.toNat - 55
  else c.toNat - 87

/-- Fuel-driven rendering of `n` in uppercase hex, most significant digit
first, no leading zeros; any `fuel > n` is enough. -/
def hexCharsAux : Nat → Nat → List Char
  | 0, _ => []
  | fuel + 1, n =>
    if n < 16 then [hexDigitChar n]
    else hexCharsAux fuel (n / 16) ++ [hexDigitChar (n % 16)]

/-- `n` rendered in uppercase hex with no leading zeros (`"0"` for 0). -/
def hexChars (n : Nat) : List Char := hexCharsAux (n + 1) n

/-- The number a list of hex digit characters denotes. -/
def hexVal (cs : List Char) : Nat :=
  cs.foldl (fun a c => a * 16 + hexDigitVal c) 0

/-- Modelled from the spec: `LSNParser.ToString` via `pglogrepl.LSN.String`,
i.e. `fmt.Sprintf("%X/%X", uint32(lsn >> 32), uint32(lsn))`. -/
def lsnToString (v : Nat) : String :=
  String.mk (hexChars (v / 2 ^ 32 % 2 ^ 32) ++ '/' :: hexChars (v % 2 ^ 32))

/-- Modelled from the spec: `LSNParser.FromString` via
`pglogrepl.ParseLSN`, i.e. `fmt.Sscanf(s, "%X/%X")` followed by
`(upper << 32) + lower` in `uint64` arithmetic. -/
def lsnFromString (s : String) : Option Nat :=
  let cs := s.data
  let upper := cs.takeWhile isHexDigit
  match cs.dropWhile isHexDigit with
  | [] => none
  | c :: lower =>
    if c = '/' ∧ upper ≠ [] ∧ lower ≠ [] ∧ lower.all isHexDigit then
      some ((hexVal upper * 2 ^ 32 + hexVal lower) % 2 ^ 64)
    else none

/-- A string in the canonical LSN text form: one the formatter produces for
some 64-bit LSN value. -/
def IsCanonicalLSNString (s : String) : Prop :=
  ∃ v : Nat, v < 2 ^ 64 ∧ lsnToString v = s

/-- A concrete WAL record used to instantiate witnesses. -/
def sampleWalData : WalData :=
  ⟨"I", "", "1/CF54A048", "test_schema", "test_table", [], [], ⟨"", "", "", ""⟩⟩

/-- A concrete fetched Kafka record used to instantiate witnesses. -/
def sampleRecord : KafkaRecord := ⟨"integration-tests", 0, 0, "test_schema", "payload"⟩

/-- The `errors.New("oh noes")` error the repository's tests inject. -/
def errTest : GoErr := .base "oh noes"

/-! ## Supporting lemmas -/

theorem hexDigitVal_hexDigitChar {d : Nat} (h : d < 16) :
    hexDigitVal (hexDigitChar d) = d := by
  interval_cases d <;> decide

theorem isHexDigit_hexDigitChar {d : Nat} (h : d < 16) :
    isHexDigit (hexDigitChar d) = true := by
  interval_cases d <;> decide

theorem hexVal_append_digit (cs : List Char) (c : Char) :
    hexVal (cs ++ [c]) = hexVal cs * 16 + hexDigitVal c := by
  simp [hexVal, List.foldl_append]

theorem hexCharsAux_spec :
    ∀ fuel n, n < fuel →
      hexVal (hexCharsAux fuel n) = n ∧ hexCharsAux fuel n ≠ [] ∧
        (hexCharsAux fuel n).all isHexDigit = true := by
  intro fuel
  induction fuel with
  | zero => intro n h; omega
  | succ f ih =>
    intro n h
    by_cases h16 : n < 16
    · refine ⟨?_, ?_, ?_⟩ <;>
        simp [hexCharsAux, h16, hexVal, hexDigitVal_hexDigitChar h16,
          isHexDigit_hexDigitChar h16]
    · have hdiv : n / 16 < f := by
        have h1 : n / 16 < n := Nat.div_lt_self (by omega) (by omega)
        omega
      obtain ⟨ihv, ihne, ihall⟩ := ih (n / 16) hdiv
      have hm : n % 16 < 16 := Nat.mod_lt _ (by omega)
      refine ⟨?_, ?_, ?_⟩
      · simp only [hexCharsAux, if_neg h16]
        rw [hexVal_append_digit, ihv, hexDigitVal_hexDigitChar hm]
        omega
      · simp [hexCharsAux, h16]
      · simp only [hexCharsAux, if_neg h16, List.all_append]
        simp [ihall, isHexDigit_hexDigitChar hm]

theorem hexVal_hexChars (n : Nat) : hexVal (hexChars n) = n :=
  (hexCharsAux_spec (n + 1) n (Nat.lt_succ_self n)).1

theorem hexChars_ne_nil (n : Nat) : hexChars n ≠ [] :=
  (hexCharsAux_spec (n + 1) n (Nat.lt_succ_self n)).2.1

theorem hexChars_all_hex (n : Nat) : (hexChars n).all isHexDigit = true :=
  (hexCharsAux_spec (n + 1) n (Nat.lt_succ_self n)).2.2

theorem takeWhile_all_append {p : Char → Bool} :
    ∀ (as : List Char) (x : Char) (bs : List Char),
      as.all p = true → p x = false →
      (as ++ x :: bs).takeWhile p = as ∧
        (as ++ x :: bs).dropWhile p = x :: bs := by
  intro as
  induction as with
  | nil =>
    intro x bs _ hx
    constructor <;> simp [List.takeWhile, List.dropWhile, hx]
  | cons a t ih =>
    intro x bs hall hx
    have ha : p a = true := by
      simp only [List.all_cons, Bool.and_eq_true] at hall
      exact hall.1
    have ht : t.all p = true := by
      simp only [List.all_cons, Bool.and_eq_true] at hall
      exact hall.2
    obtain ⟨h1, h2⟩ := ih x bs ht hx
    constructor <;> simp [List.takeWhile, List.dropWhile, ha, h1, h2]

theorem lsn_roundtrip (v : Nat) (h : v < 2 ^ 64) :
    lsnFromString (lsnToString v) = some v := by
  have hslash : isHexDigit '/' = false := by decide
  obtain ⟨htake, hdrop⟩ := takeWhile_all_append (hexChars (v / 2 ^ 32 % 2 ^ 32))
    '/' (hexChars (v % 2 ^ 32)) (hexChars_all_hex _) hslash
  rw [lsnToString]
  unfold lsnFromString
  simp only [htake, hdrop]
  rw [if_pos ⟨trivial, hexChars_ne_nil _, hexChars_ne_nil _, hexChars_all_hex _⟩]
  rw [hexVal_hexChars, hexVal_hexChars]
  congr 1
  omega

theorem pickNewer_version_le (acc : Option SchemaLogEntry) (x : SchemaLogEntry) :
    ∃ y, pickNewer acc x = some y ∧ x.version ≤ y.version ∧
      ∀ b, acc = some b → b.version ≤ y.version := by
  cases acc with
  | none => exact ⟨x, rfl, le_refl _, fun b hb => by cases hb⟩
  | some b =>
    by_cases h : b.version < x.version
    · refine ⟨x, by simp [pickNewer, h], le_refl _, fun b2 hb2 => ?_⟩
      cases hb2
      exact le_of_lt h
    · refine ⟨b, by simp [pickNewer, h], Nat.le_of_not_lt h, fun b2 hb2 => ?_⟩
      cases hb2
      exact le_refl _

theorem foldl_pickNewer_mem :
    ∀ (l : List SchemaLogEntry) (acc : Option SchemaLogEntry) (r : SchemaLogEntry),
      l.foldl pickNewer acc = some r → acc = some r ∨ r ∈ l := by
  intro l
  induction l with
  | nil => exact fun acc r h => Or.inl h
  | cons x t ih =>
    intro acc r h
    rw [List.foldl_cons] at h
    rcases ih (pickNewer acc x) r h with hacc | hmem
    · cases acc with
      | none =>
        simp only [pickNewer, Option.some.injEq] at hacc
        exact Or.inr (by rw [← hacc]; exact List.mem_cons_self x t)
      | some b =>
        simp only [pickNewer] at hacc
        split at hacc
        · cases hacc
          exact Or.inr (List.mem_cons_self x t)
        · exact Or.inl hacc
    · exact Or.inr (List.mem_cons_of_mem x hmem)

theorem foldl_pickNewer_ge :
    ∀ (l : List SchemaLogEntry) (acc : Option SchemaLogEntry) (r : SchemaLogEntry),
      l.foldl pickNewer acc = some r →
      (∀ b, acc = some b → b.version ≤ r.version) ∧
      (∀ x ∈ l, x.version ≤ r.version) := by
  intro l
  induction l with
  | nil =>
    intro acc r h
    refine ⟨fun b hb => ?_, fun x hx => absurd hx (List.not_mem_nil x)⟩
    rw [hb] at h
    cases h
    exact le_refl _
  | cons x t ih =>
    intro acc r h
    rw [List.foldl_cons] at h
    obtain ⟨y, hy, hxy, haccy⟩ := pickNewer_version_le acc x
    rw [hy] at h
    obtain ⟨ih1, ih2⟩ := ih (some y) r h
    have hyr : y.version ≤ r.version := ih1 y rfl
    refine ⟨fun b hb => le_trans (haccy b hb) hyr, fun z hz => ?_⟩
    rcases List.mem_cons.mp hz with hzx | hzt
    · rw [hzx]
      exact le_trans hxy hyr
    · exact ih2 z hzt

/-! ## Claim theorems -/

/-- Claim C9: the Postgres LSN parser's two operations are mutually inverse:
`FromString` after `ToString` recovers every 64-bit LSN value, and `ToString`
after `FromString` recovers every string in the canonical
`HHHHHHHH/HHHHHHHH` form (a string the formatter produces for some 64-bit
value).  Both operations are pure Lean functions, hence deterministic and
stateless. -/
theorem lsn_parser_mutually_inverse :
    (∀ v : Nat, v < 2 ^ 64 → lsnFromString (lsnToString v) = some v) ∧
    (∀ s : String, IsCanonicalLSNString s →
      ∃ v : Nat, lsnFromString s = some v ∧ lsnToString v = s) := by
  refine ⟨fun v h => lsn_roundtrip v h, fun s hs => ?_⟩
  obtain ⟨v, hv, hvs⟩ := hs
  exact ⟨v, by rw [← hvs]; exact lsn_roundtrip v hv, hvs⟩

/-- Witness for C9 at the repository's test LSN `1/CF54A048`
(= 7773397064). -/
theorem lsn_parser_mutually_inverse_witness :
    lsnFromString (lsnToString 7773397064) = some 7773397064 ∧
      ∃ v : Nat, lsnFromString "1/CF54A048" = some v ∧
        lsnToString v = "1/CF54A048" :=
  ⟨lsn_parser_mutually_inverse.1 7773397064 (by norm_num),
    lsn_parser_mutually_inverse.2 "1/CF54A048" ⟨7773397064, by norm_num, by decide⟩⟩

/-- Claim C8: the schema-log store's error mapping sends every error that is
or wraps the driver's no-rows error to the sentinel `ErrNoRows` and returns
every other error unchanged. -/
theorem mapError_translates_no_rows :
    ∀ e : GoErr,
      (e.isErr pgxErrNoRows = true → mapError e = schemalogErrNoRows) ∧
      (e.isErr pgxErrNoRows = false → mapError e = e) := by
  intro e
  constructor <;> intro h <;> simp [mapError, h]

/-- Witness for C8 at the two inputs of `Test_mapError`: an unrelated error
passes through, a wrap of `pgx.ErrNoRows` becomes the sentinel. -/
theorem mapError_translates_no_rows_witness :
    mapError (.wrap "another error" pgxErrNoRows) = schemalogErrNoRows ∧
      mapError errTest = errTest :=
  ⟨(mapError_translates_no_rows (.wrap "another error" pgxErrNoRows)).1 (by decide),
    (mapError_translates_no_rows errTest).2 (by decide)⟩

/-- Claim C10: `schemaCleaner.deleteSchema` ignores its context argument
entirely — the result is the same for any two contexts, cancelled or not; it
returns nil as soon as the queue accepts (some instant of the timeout window
has room), returns the registration-timeout error exactly when the queue
stays full for the whole window, and never returns an error that is a
context cancellation. -/
theorem deleteSchema_ignores_context :
    ∀ (ctx ctx2 : GoContext) (trace : List Bool),
      deleteSchema ctx trace = deleteSchema ctx2 trace ∧
      (trace.any id = true → deleteSchema ctx trace = none) ∧
      (trace.any id = false →
        deleteSchema ctx trace = some errRegistrationTimeout) ∧
      (∀ e, deleteSchema ctx trace = some e → e.isErr ctxCanceled = false) := by
  intro ctx ctx2 trace
  induction trace with
  | nil =>
    refine ⟨rfl, by simp, fun _ => rfl, ?_⟩
    intro e he
    simp only [deleteSchema, Option.some.injEq] at he
    rw [← he]
    decide
  | cons b t ih =>
    cases b with
    | true => exact ⟨rfl, fun _ => rfl, by simp, by simp [deleteSchema]⟩
    | false =>
      refine ⟨ih.1, ?_, ?_, ?_⟩
      · intro h
        simp only [List.any_cons, id, Bool.false_or] at h
        exact ih.2.1 h
      · intro h
        simp only [List.any_cons, id, Bool.false_or] at h
        exact ih.2.2.1 h
      · exact ih.2.2.2

/-- Witness for C10: a cancelled and a live context agree; room at the second
instant yields nil; a full queue for the whole window yields the
registration-timeout error, which is not a cancellation. -/
theorem deleteSchema_ignores_context_witness :
    deleteSchema ⟨true⟩ [false, true] = deleteSchema ⟨false⟩ [false, true] ∧
      deleteSchema ⟨true⟩ [false, true] = none ∧
      deleteSchema ⟨true⟩ [false, false] = some errRegistrationTimeout ∧
      errRegistrationTimeout.isErr ctxCanceled = false :=
  ⟨(deleteSchema_ignores_context ⟨true⟩ ⟨false⟩ [false, true]).1,
    (deleteSchema_ignores_context ⟨true⟩ ⟨false⟩ [false, true]).2.1 (by decide),
    (deleteSchema_ignores_context ⟨true⟩ ⟨false⟩ [false, false]).2.2.1 (by decide),
    (deleteSchema_ignores_context ⟨true⟩ ⟨false⟩ [false, false]).2.2.2
      errRegistrationTimeout (by decide)⟩

/-- Claim C6: `Reader.Listen` error policy — a fetch error returns (fatal,
wrapped `reading from kafka`); an unmarshal error returns (fatal, wrapped);
a `processRecord` error that is a context cancellation returns an error
wrapping it; every other `processRecord` error is logged at DATALOSS
severity and the loop continues with the next message. -/
theorem listen_error_policy :
    ∀ (it : ListenIteration) (rest : List ListenIteration), it.ctxDone = false →
      (∀ e, it.fetch = .error e →
        listen (it :: rest) = ⟨some (.wrap "reading from kafka" e), []⟩) ∧
      (∀ r e, it.fetch = .ok r → it.unmarshal = .error e →
        listen (it :: rest) =
          ⟨some (.wrap "error unmarshaling message value into wal data" e), []⟩) ∧
      (∀ r d e, it.fetch = .ok r → it.unmarshal = .ok d → it.process = some e →
        e.isErr ctxCanceled = true →
        listen (it :: rest) = ⟨some (.wrap "canceled" e), []⟩) ∧
      (∀ r d e, it.fetch = .ok r → it.unmarshal = .ok d → it.process = some e →
        e.isErr ctxCanceled = false →
        listen (it :: rest) =
          ⟨(listen rest).returned, e :: (listen rest).datalossLogged⟩) := by
  intro it rest hdone
  refine ⟨?_, ?_, ?_, ?_⟩
  · intro e hf
    simp [listen, hdone, hf]
  · intro r e hf hu
    simp [listen, hdone, hf, hu]
  · intro r d e hf hu hp hc
    simp [listen, hdone, hf, hu, hp, hc]
  · intro r d e hf hu hp hc
    simp [listen, hdone, hf, hu, hp, hc]

/-- Witness for C6: each branch of the policy at a concrete iteration — a
fetch error and an unmarshal error are fatal, a cancellation from the
processor is fatal, and an ordinary processor error is logged with the loop
continuing (here onto an empty remainder, so the run ends with no returned
error and one DATALOSS log). -/
theorem listen_error_policy_witness :
    listen [⟨false, .error errTest, .ok sampleWalData, none⟩] =
        ⟨some (.wrap "reading from kafka" errTest), []⟩ ∧
      listen [⟨false, .ok sampleRecord, .error errTest, none⟩] =
        ⟨some (.wrap "error unmarshaling message value into wal data" errTest), []⟩ ∧
      listen [⟨false, .ok sampleRecord, .ok sampleWalData,
          some (.wrap "processing" ctxCanceled)⟩] =
        ⟨some (.wrap "canceled" (.wrap "processing" ctxCanceled)), []⟩ ∧
      listen [⟨false, .ok sampleRecord, .ok sampleWalData, some errTest⟩] =
        ⟨none, [errTest]⟩ :=
  ⟨(listen_error_policy _ [] rfl).1 errTest rfl,
    (listen_error_policy _ [] rfl).2.1 sampleRecord errTest rfl rfl,
    (listen_error_policy _ [] rfl).2.2.1 sampleRecord sampleWalData
      (.wrap "processing" ctxCanceled) rfl rfl rfl (by decide),
    (listen_error_policy _ [] rfl).2.2.2 sampleRecord sampleWalData errTest
      rfl rfl rfl (by decide)⟩

/-- Claim C1: the sender's batching rule — whenever appending a message
would push the current batch over `maxBatchBytes` in bytes or over
`maxBatchSize` in count, the current batch is flushed first and a fresh
batch is started containing just that message; on the concrete stream of
payload sizes 51, 50 and 10 with `maxBatchBytes = 100`, the first flush
writes exactly the 51-byte message, the second writes the 50- and 10-byte
messages in order, and the semaphore releases are 51 then 60 bytes. -/
theorem sender_batching_rule :
    (∀ (maxBatchBytes maxBatchSize : Nat) (st : SendState) (m : Msg),
      st.current.totalBytes + m.size > maxBatchBytes ∨
        st.current.msgs.length + m.countWeight > maxBatchSize →
      sendStep maxBatchBytes maxBatchSize st m =
        ⟨MsgBatch.empty.add m, st.flushed ++ [st.current]⟩) ∧
    flushWrites (sendRun 100 10
        [⟨⟨"test_schema", String.mk (List.replicate 51 'a')⟩, "1/CF54A048"⟩,
          ⟨⟨"test_schema", String.mk (List.replicate 50 'b')⟩, "1/CF54A048"⟩,
          ⟨⟨"test_schema", String.mk (List.replicate 10 'c')⟩, "1/CF54A048"⟩]) =
      [[⟨"test_schema", String.mk (List.replicate 51 'a')⟩],
        [⟨"test_schema", String.mk (List.replicate 50 'b')⟩,
          ⟨"test_schema", String.mk (List.replicate 10 'c')⟩]] ∧
    flushReleases (sendRun 100 10
        [⟨⟨"test_schema", String.mk (List.replicate 51 'a')⟩, "1/CF54A048"⟩,
          ⟨⟨"test_schema", String.mk (List.replicate 50 'b')⟩, "1/CF54A048"⟩,
          ⟨⟨"test_schema", String.mk (List.replicate 10 'c')⟩, "1/CF54A048"⟩]) =
      [51, 60] := by
  refine ⟨fun mb ms st m h => ?_, by decide, by decide⟩
  unfold sendStep
  rw [if_pos h]

/-- Witness for C1's batching rule at the moment the 50-byte message meets
the batch holding the 51-byte message. -/
theorem sender_batching_rule_witness :
    sendStep 100 10
        ⟨⟨[⟨"test_schema", String.mk (List.replicate 51 'a')⟩], ["1/CF54A048"], 51⟩, []⟩
        ⟨⟨"test_schema", String.mk (List.replicate 50 'b')⟩, "1/CF54A048"⟩ =
      ⟨MsgBatch.empty.add ⟨⟨"test_schema", String.mk (List.replicate 50 'b')⟩, "1/CF54A048"⟩,
        [⟨[⟨"test_schema", String.mk (List.replicate 51 'a')⟩], ["1/CF54A048"], 51⟩]⟩ :=
  sender_batching_rule.1 100 10
    ⟨⟨[⟨"test_schema", String.mk (List.replicate 51 'a')⟩], ["1/CF54A048"], 51⟩, []⟩
    ⟨⟨"test_schema", String.mk (List.replicate 50 'b')⟩, "1/CF54A048"⟩
    (Or.inl (by decide))

/-- Claim C2: an event whose serialized payload exceeds `maxBatchBytes` is
logged and dropped by `ProcessWALEvent`, which returns nil: nothing is
enqueued (so it can never be flushed to the sink and its commit position
never reaches the checkpointer) and the byte semaphore is never acquired. -/
theorem oversized_event_dropped :
    ∀ (maxBatchBytes : Nat) (serialise : WalData → Except GoErr String)
      (acquire : Nat → Option GoErr) (d : WalData) (pos bytes : String),
      understandEvent d = none → serialise d = .ok bytes →
      bytes.length > maxBatchBytes →
      processWALEvent maxBatchBytes serialise acquire ⟨some d, pos⟩ =
        ⟨none, [], []⟩ := by
  intro mb ser acq d pos bytes hu hs hlen
  simp [processWALEvent, hu, hs, hlen]

/-- Witness for C2: a 101-byte serialization against `maxBatchBytes = 100`
is dropped with a nil result, no enqueue and no semaphore acquisition. -/
theorem oversized_event_dropped_witness :
    processWALEvent 100 (fun _ => .ok (String.mk (List.replicate 101 'a')))
        (fun _ => none) ⟨some sampleWalData, "1/CF54A048"⟩ = ⟨none, [], []⟩ :=
  oversized_event_dropped 100 _ _ sampleWalData "1/CF54A048"
    (String.mk (List.replicate 101 'a')) (by decide) rfl (by decide)

/-- Claim C3: a batch holding no payload messages but at least one
keep-alive position skips the sink write yet still hands its positions to
the checkpointer; and a keep-alive event (nil `Data`) is admitted by
`ProcessWALEvent` as a position-only message of size 0. -/
theorem keepalive_only_batch_checkpointed :
    (∀ (writeErr checkpointErr : Option GoErr) (b : MsgBatch),
      b.msgs = [] → b.positions ≠ [] →
      sendBatch writeErr checkpointErr b = ⟨none, none, none, some b.positions⟩) ∧
    (∀ (maxBatchBytes : Nat) (serialise : WalData → Except GoErr String)
      (acquire : Nat → Option GoErr) (pos : String),
      processWALEvent maxBatchBytes serialise acquire ⟨none, pos⟩ =
        ⟨none, [keepAliveMsg pos], []⟩ ∧ (keepAliveMsg pos).size = 0) := by
  refine ⟨fun we ce b hm hp => ?_, fun mb ser acq pos => ⟨rfl, rfl⟩⟩
  simp [sendBatch, hm, hp]

/-- Witness for C3: a batch of one keep-alive position is checkpointed but
not written, and a nil-`Data` event becomes a size-0 position-only
message. -/
theorem keepalive_only_batch_checkpointed_witness :
    sendBatch none none ⟨[], ["1/CF54A048"], 0⟩ =
        ⟨none, none, none, some ["1/CF54A048"]⟩ ∧
      processWALEvent 100 (fun _ => .ok "test") (fun _ => none)
          ⟨none, "1/CF54A048"⟩ = ⟨none, [keepAliveMsg "1/CF54A048"], []⟩ ∧
      (keepAliveMsg "1/CF54A048").size = 0 :=
  ⟨keepalive_only_batch_checkpointed.1 none none ⟨[], ["1/CF54A048"], 0⟩ rfl
      (by decide),
    (keepalive_only_batch_checkpointed.2 100 (fun _ => .ok "test")
      (fun _ => none) "1/CF54A048").1,
    (keepalive_only_batch_checkpointed.2 100 (fun _ => .ok "test")
      (fun _ => none) "1/CF54A048").2⟩

/-- Claim C5: checkpoint errors are never fatal — on a non-empty batch whose
sink write succeeds, `sendBatch` returns nil even when the checkpoint call
errors (the error is only logged), and the checkpointer is still invoked;
whereas a failed sink write makes `sendBatch` return that error with the
checkpointer never invoked. -/
theorem checkpoint_errors_nonfatal :
    ∀ (checkpointErr : GoErr) (b : MsgBatch), b.msgs ≠ [] →
      sendBatch none (some checkpointErr) b =
        ⟨none, some b.msgs, some b.totalBytes, some b.positions⟩ ∧
      ∀ writeErr : GoErr,
        sendBatch (some writeErr) (some checkpointErr) b =
          ⟨some writeErr, some b.msgs, none, none⟩ := by
  intro ce b hb
  constructor <;> [skip; intro we] <;> simp [sendBatch, hb]

/-- Witness for C5 on the test batch of one 4-byte message: a checkpoint
error leaves the result nil; a write error is returned with no
checkpoint. -/
theorem checkpoint_errors_nonfatal_witness :
    sendBatch none (some errTest) ⟨[⟨"test_schema", "test"⟩], ["1/CF54A048"], 4⟩ =
        ⟨none, some [⟨"test_schema", "test"⟩], some 4, some ["1/CF54A048"]⟩ ∧
      sendBatch (some errTest) (some errTest)
          ⟨[⟨"test_schema", "test"⟩], ["1/CF54A048"], 4⟩ =
        ⟨some errTest, some [⟨"test_schema", "test"⟩], none, none⟩ :=
  ⟨(checkpoint_errors_nonfatal errTest
      ⟨[⟨"test_schema", "test"⟩], ["1/CF54A048"], 4⟩ (by decide)).1,
    (checkpoint_errors_nonfatal errTest
      ⟨[⟨"test_schema", "test"⟩], ["1/CF54A048"], 4⟩ (by decide)).2 errTest⟩

/-- Claim C4: on a schema-log insert event, a missing `schema_name` column
makes `ProcessWALEvent` return the error whose message is
`kafka batch writer: understanding event: schema_log schema_name not found
in columns`, and a `schema_name` value of non-string type `T` the error
`kafka batch writer: understanding event: schema_log schema_name received
is not a string: T`; in both cases the panic is recovered into an ordinary
error value (the model stays total) and nothing is enqueued. -/
theorem schema_log_contract_violations :
    ∀ (maxBatchBytes : Nat) (serialise : WalData → Except GoErr String)
      (acquire : Nat → Option GoErr) (ts lsn pos : String)
      (cols ident : List WalColumn) (md : WalMetadata),
      (cols.find? (fun c => c.name == "schema_name") = none →
        processWALEvent maxBatchBytes serialise acquire
            ⟨some ⟨"I", ts, lsn, schemalogSchemaName, schemalogTableName,
              cols, ident, md⟩, pos⟩ =
          ⟨some (.wrap "kafka batch writer: understanding event"
            (.base "schema_log schema_name not found in columns")), [], []⟩ ∧
        (GoErr.wrap "kafka batch writer: understanding event"
            (.base "schema_log schema_name not found in columns")).message =
          "kafka batch writer: understanding event: schema_log schema_name not found in columns") ∧
      (∀ (c : WalColumn) (v : GoValue),
        cols.find? (fun c => c.name == "schema_name") = some c → c.value = v →
        (∀ s, v ≠ .str s) →
        processWALEvent maxBatchBytes serialise acquire
            ⟨some ⟨"I", ts, lsn, schemalogSchemaName, schemalogTableName,
              cols, ident, md⟩, pos⟩ =
          ⟨some (.wrap "kafka batch writer: understanding event"
            (.base ("schema_log schema_name received is not a string: "
              ++ v.typeName))), [], []⟩ ∧
        (GoErr.wrap "kafka batch writer: understanding event"
            (.base ("schema_log schema_name received is not a string: "
              ++ v.typeName))).message =
          "kafka batch writer: understanding event: schema_log schema_name received is not a string: "
            ++ v.typeName) := by
  intro mb ser acq ts lsn pos cols ident md
  constructor
  · intro hfind
    refine ⟨?_, rfl⟩
    simp [processWALEvent, understandEvent, hfind]
  · intro c v hfind hv hnotstr
    cases v with
    | str s => exact absurd rfl (hnotstr s)
    | int n =>
      refine ⟨?_, ?_⟩
      · simp [processWALEvent, understandEvent, hfind, hv]
      · rw [show (GoValue.int n).typeName = "int" from rfl]
        decide
    | bool b =>
      refine ⟨?_, ?_⟩
      · simp [processWALEvent, understandEvent, hfind, hv]
      · rw [show (GoValue.bool b).typeName = "bool" from rfl]
        decide
    | null =>
      refine ⟨?_, ?_⟩
      · simp [processWALEvent, understandEvent, hfind, hv]
      · decide

/-- Witness for C4 at the two test inputs: a schema-log insert with no
columns, and one whose `schema_name` column holds the integer 1. -/
theorem schema_log_contract_violations_witness :
    processWALEvent 100 (fun _ => .ok "test") (fun _ => none)
        ⟨some ⟨"I", "", "1/CF54A048", schemalogSchemaName, schemalogTableName,
          [], [], ⟨"", "", "", ""⟩⟩, "1/CF54A048"⟩ =
      ⟨some (.wrap "kafka batch writer: understanding event"
        (.base "schema_log schema_name not found in columns")), [], []⟩ ∧
    processWALEvent 100 (fun _ => .ok "test") (fun _ => none)
        ⟨some ⟨"I", "", "1/CF54A048", schemalogSchemaName, schemalogTableName,
          [⟨"", "schema_name", "", .int 1⟩], [], ⟨"", "", "", ""⟩⟩, "1/CF54A048"⟩ =
      ⟨some (.wrap "kafka batch writer: understanding event"
        (.base ("schema_log schema_name received is not a string: "
          ++ (GoValue.int 1).typeName))), [], []⟩ :=
  ⟨((schema_log_contract_violations 100 (fun _ => .ok "test") (fun _ => none)
      "" "1/CF54A048" "1/CF54A048" [] [] ⟨"", "", "", ""⟩).1 (by decide)).1,
    ((schema_log_contract_violations 100 (fun _ => .ok "test") (fun _ => none)
      "" "1/CF54A048" "1/CF54A048" [⟨"", "schema_name", "", .int 1⟩] []
      ⟨"", "", "", ""⟩).2 ⟨"", "schema_name", "", .int 1⟩ (.int 1) (by decide)
      rfl (fun s h => by cases h)).1⟩

/-- Claim C7: for every schema name and `ackedOnly` flag, `Store.Fetch`
issues exactly one query of the shape `select id, version, schema_name,
schema, created_at, acked from <schemalog-schema>.<schemalog-table> where
schema_name = $1 [and acked] order by version desc limit 1` — the `and
acked` clause present exactly when `ackedOnly` is true — with the schema
name as the single argument; on success it returns the row that query
selects: a matching row of the table holding the highest version among the
matching rows. -/
theorem fetch_issues_single_query :
    ∀ (db : List SchemaLogEntry) (schemaName : String) (ackedOnly : Bool),
      (fetch db schemaName ackedOnly).call = ⟨fetchQuery ackedOnly, [schemaName]⟩ ∧
      fetchQuery false =
        "select id, version, schema_name, schema, created_at, acked from pgstream.schema_log where schema_name = $1  order by version desc limit 1" ∧
      fetchQuery true =
        "select id, version, schema_name, schema, created_at, acked from pgstream.schema_log where schema_name = $1 and acked order by version desc limit 1" ∧
      (∀ r, (fetch db schemaName ackedOnly).result = .ok r →
        r ∈ db ∧ matchesFetch schemaName ackedOnly r = true ∧
        ∀ r2 ∈ db, matchesFetch schemaName ackedOnly r2 = true →
          r2.version ≤ r.version) := by
  intro db s a
  refine ⟨rfl, by decide, by decide, fun r hr => ?_⟩
  have hq : runFetchQuery db s a = some r := by
    cases hq : runFetchQuery db s a with
    | none => simp [fetch, hq] at hr
    | some r2 =>
      simp [fetch, hq] at hr
      rw [← hr]
  unfold runFetchQuery at hq
  have hmem : r ∈ db.filter (matchesFetch s a) := by
    rcases foldl_pickNewer_mem _ none r hq with h0 | h1
    · cases h0
    · exact h1
  have hf := List.mem_filter.mp hmem
  refine ⟨hf.1, hf.2, fun r2 hr2 hm2 => ?_⟩
  exact (foldl_pickNewer_ge _ none r hq).2 r2 (List.mem_filter.mpr ⟨hr2, hm2⟩)

/-- Witness for C7 on a two-row table: the acked fetch issues the acked
query with the schema name as single argument and returns the version-2 row,
which dominates the version-1 row. -/
theorem fetch_issues_single_query_witness :
    (fetch [⟨"id1", 1, "test_schema", "s1", "t1", true⟩,
        ⟨"id2", 2, "test_schema", "s2", "t2", true⟩] "test_schema" true).call =
      ⟨fetchQuery true, ["test_schema"]⟩ ∧
    ⟨"id2", 2, "test_schema", "s2", "t2", true⟩ ∈
      ([⟨"id1", 1, "test_schema", "s1", "t1", true⟩,
        ⟨"id2", 2, "test_schema", "s2", "t2", true⟩] : List SchemaLogEntry) ∧
    matchesFetch "test_schema" true ⟨"id2", 2, "test_schema", "s2", "t2", true⟩ = true ∧
    (1 : Nat) ≤ 2 :=
  ⟨(fetch_issues_single_query
      [⟨"id1", 1, "test_schema", "s1", "t1", true⟩,
        ⟨"id2", 2, "test_schema", "s2", "t2", true⟩] "test_schema" true).1,
    ((fetch_issues_single_query
      [⟨"id1", 1, "test_schema", "s1", "t1", true⟩,
        ⟨"id2", 2, "test_schema", "s2", "t2", true⟩] "test_schema" true).2.2.2
      ⟨"id2", 2, "test_schema", "s2", "t2", true⟩ rfl).1,
    ((fetch_issues_single_query
      [⟨"id1", 1, "test_schema", "s1", "t1", true⟩,
        ⟨"id2", 2, "test_schema", "s2", "t2", true⟩] "test_schema" true).2.2.2
      ⟨"id2", 2, "test_schema", "s2", "t2", true⟩ rfl).2.1,
    ((fetch_issues_single_query
      [⟨"id1", 1, "test_schema", "s1", "t1", true⟩,
        ⟨"id2", 2, "test_schema", "s2", "t2", true⟩] "test_schema" true).2.2.2
      ⟨"id2", 2, "test_schema", "s2", "t2", true⟩ rfl).2.2
      ⟨"id1", 1, "test_schema", "s1", "t1", true⟩ (by decide) (by decide)⟩

end Pgstream
